import Mathlib

/-!
Verification development for the keyframe-based mask propagation and
interpolation pipeline of the ArsPostFaber repository
(`video_segmentation.py` and `simple_segment.py`).

The Python code is shallowly embedded:
* an Object Mask is a 2D boolean array, modelled as `List (List Bool)`;
* the stored mask mapping `self.video_segments` (frame index → object id →
  mask) is modelled as the function type `Segs`;
* Python floats used for the interpolation weight `alpha` are modelled as
  rationals `ℚ` (the interpolation arithmetic on binary masks is exact at
  the points the claims speak about);
* the Segmentation Oracle (SAM2) is external; its possible behaviours are
  abstracted as explicit outcome values fed to the embedded control flow;
* Python exceptions are modelled by `PyExc` and `Except`.
-/

namespace ArsPostFaber

/-- A binary Object Mask: a 2D boolean array (rows of pixels). -/
abbrev Mask := List (List Bool)

/-- The mapping `self.video_segments`: frame index → object id → stored mask. -/
abbrev Segs := Nat → Nat → Option Mask

/-- The empty `video_segments` mapping. -/
def emptySegs : Segs := fun _ _ => none

/-- Assignment `self.video_segments[frameIdx][objId] = m`
(`video_segmentation.py`, the two-line store pattern used at lines
444-447, 483-485, 546-548, 602-604, 612-614, 621-623). -/
def store (segs : Segs) (frameIdx objId : Nat) (m : Mask) : Segs :=
  fun f o => if f = frameIdx then (if o = objId then some m else segs f o) else segs f o

/-- Numeric value of a boolean mask pixel (numpy bool → float coercion). -/
def pixVal (b : Bool) : ℚ := if b then 1 else 0

/-- One pixel of `(alpha * after_mask + (1 - alpha) * before_mask) > 0.5`
(`video_segmentation.py` line 599 / `simple_segment.py` line 240). -/
def blendPix (alpha : ℚ) (beforePix afterPix : Bool) : Bool :=
  decide (alpha * pixVal afterPix + (1 - alpha) * pixVal beforePix > 1/2)

/-- Elementwise linear interpolation of two masks followed by the 0.5
threshold, exactly the numpy expression
`(alpha * after_mask + (1 - alpha) * before_mask) > 0.5`. -/
def interpMask (alpha : ℚ) (beforeMask afterMask : Mask) : Mask :=
  List.zipWith (List.zipWith (blendPix alpha)) beforeMask afterMask

/-- Head of `before_frames`: nearest earlier frame already holding a mask for
`objId`, found by scanning `range(start_idx - 1, -1, -1)`
(`video_segmentation.py` lines 576-577, 581); the mask stored there is
returned with it. -/
def beforeRef (segs : Segs) (objId startIdx : Nat) : Option (Nat × Mask) :=
  ((List.range startIdx).reverse.filterMap
    (fun f => (segs f objId).map (fun m => (f, m)))).head?

/-- Head of `after_frames`: nearest frame at or beyond `endIdx` already holding
a mask for `objId`, found by scanning `range(end_idx, frame_count)`
(`video_segmentation.py` lines 578-579, 582). -/
def afterRef (segs : Segs) (objId endIdx frameCount : Nat) : Option (Nat × Mask) :=
  ((List.range' endIdx (frameCount - endIdx)).filterMap
    (fun f => (segs f objId).map (fun m => (f, m)))).head?

/-- The body of `_fallback_processing`'s per-frame loop
(`video_segmentation.py` lines 585-629): skip frames already masked for the
current object id; otherwise interpolate between the two references, or copy
the single available reference, or (neither reference) warn and store
nothing. -/
def fallbackFrame (objId : Nat) (bref aref : Option (Nat × Mask))
    (segs : Segs) (frameIdx : Nat) : Segs :=
  if (segs frameIdx objId).isSome then segs
  else
    match bref, aref with
    | some (b, bm), some (a, am) =>
        let alpha : ℚ := ((frameIdx : ℚ) - (b : ℚ)) / ((a : ℚ) - (b : ℚ))
        store segs frameIdx objId (interpMask alpha bm am)
    | some (_, bm), none => store segs frameIdx objId bm
    | none, some (_, am) => store segs frameIdx objId am
    | none, none => segs

/-- Embedding of `VideoProcessor._fallback_processing(start_idx, end_idx)`
(`video_segmentation.py` lines 571-629): compute the nearest before/after
references once, then process every frame of `range(start_idx, end_idx)`. -/
def fallbackProcessing (frameCount objId startIdx endIdx : Nat) (segs : Segs) : Segs :=
  let bref := beforeRef segs objId startIdx
  let aref := afterRef segs objId endIdx frameCount
  (List.range' startIdx (endIdx - startIdx)).foldl (fallbackFrame objId bref aref) segs

/-- A Python exception, as far as `propagate_in_video`'s handler can
distinguish: a `RuntimeError` carrying a message, or an exception of any
other class (named for bookkeeping). -/
inductive PyExc where
  | runtimeError (msg : String)
  | otherExc (clsName : String)
deriving DecidableEq, Repr

/-- Boolean test that list `p` occurs as a prefix of `l`. -/
def listPrefixTest : List Char → List Char → Bool
  | [], _ => true
  | _ :: _, [] => false
  | a :: as, b :: bs => a = b && listPrefixTest as bs

/-- Boolean test that list `p` occurs contiguously inside `l`
(Python `p in s` on strings). -/
def listInfixTest (p : List Char) : List Char → Bool
  | [] => listPrefixTest p []
  | c :: rest => listPrefixTest p (c :: rest) || listInfixTest p rest

/-- Python `"out of memory" in str(e)` (`video_segmentation.py` line 496). -/
def containsOOM (s : String) : Bool :=
  listInfixTest "out of memory".toList s.toList

/-- The exceptions treated as an explicit out-of-memory signal by the
handler `except RuntimeError as e: if "out of memory" in str(e)`
(`video_segmentation.py` lines 494-496): a `RuntimeError` whose message
contains `"out of memory"`.  Exceptions of any other class are not caught
by that handler at all. -/
def isOOM : PyExc → Bool
  | .runtimeError msg => containsOOM msg
  | .otherExc _ => false

/-- One `(frame index, object id, mask)` triple yielded by the Oracle's
`propagate_in_video` generator and consumed by the engine. -/
abbrev Yield := Nat × Nat × Mask

/-- Outcome of the GPU propagation passes over one keyframe segment
(`video_segmentation.py` lines 473-492): the sequence of yields the engine
consumed, and — if the Oracle raised — the exception, with the yields
consumed before it. -/
inductive GpuOutcome where
  | ok (yields : List Yield)
  | err (yields : List Yield) (e : PyExc)

/-- Outcome of the degraded-context (CPU) recovery attempt
(`video_segmentation.py` lines 500-559): the yields it stored, and — if any
step of the recovery raised — the exception. -/
inductive CpuOutcome where
  | ok (yields : List Yield)
  | fail (yields : List Yield) (e : PyExc)

/-- Store every yielded mask whose frame index satisfies
`kf_start <= out_frame_idx < kf_end`
(`video_segmentation.py` lines 477-485 and 541-548). -/
def storeInRange (kfStart kfEnd : Nat) (segs : Segs) (ys : List Yield) : Segs :=
  (ys.filter (fun y => decide (kfStart ≤ y.1) && decide (y.1 < kfEnd))).foldl
    (fun s y => store s y.1 y.2.1 y.2.2) segs

/-- The per-segment body of `VideoProcessor.propagate_in_video`
(`video_segmentation.py` lines 466-569): run the GPU passes; on a
`RuntimeError` containing `"out of memory"` attempt the CPU recovery, and if
the recovery itself raises run `_fallback_processing` on the segment; any
other exception propagates (`raise`, or never caught). -/
def handleSegment (frameCount objId : Nat) (gpu : GpuOutcome) (cpu : CpuOutcome)
    (kfStart kfEnd : Nat) (segs : Segs) : Except PyExc Segs :=
  match gpu with
  | .ok ys => .ok (storeInRange kfStart kfEnd segs ys)
  | .err ys e =>
      let segs1 := storeInRange kfStart kfEnd segs ys
      if isOOM e then
        match cpu with
        | .ok ys2 => .ok (storeInRange kfStart kfEnd segs1 ys2)
        | .fail ys2 _ =>
            .ok (fallbackProcessing frameCount objId kfStart kfEnd
                  (storeInRange kfStart kfEnd segs1 ys2))
      else .error e

/-- Python `list(range(a, b, k))` for natural bounds and step `k ≥ 1`. -/
def rangeStep (a b k : Nat) : List Nat :=
  List.range' a ((b - a + k - 1) / k) k

/-- Computation `keyframes = list(range(start_idx, end_idx, keyframe_interval))`
followed by appending `end_idx - 1` when absent
(`video_segmentation.py` lines 460-462). -/
def keyframesList (interval startIdx endIdx : Nat) : List Nat :=
  let ks := rangeStep startIdx endIdx interval
  if endIdx - 1 ∈ ks then ks else ks ++ [endIdx - 1]

/-- The `(kf_start, kf_end)` pairs of `propagate_in_video`'s segment loop:
consecutive keyframes, with `kf_end = keyframes[i + 1] + 1`
(`video_segmentation.py` lines 466-468). -/
def segBounds (interval startIdx endIdx : Nat) : List (Nat × Nat) :=
  let ks := keyframesList interval startIdx endIdx
  (ks.zip ks.tail).map (fun p => (p.1, p.2 + 1))

/-- Embedding of `VideoProcessor.propagate_in_video(start_idx, end_idx)`
(`video_segmentation.py` lines 455-569), with the Oracle's behaviour for the
`i`-th inner segment supplied by `oracle i`. An uncaught exception aborts
the remaining segments. -/
def propagateInVideo (frameCount objId interval : Nat)
    (oracle : Nat → GpuOutcome × CpuOutcome)
    (startIdx endIdx : Nat) (segs : Segs) : Except PyExc Segs :=
  ((segBounds interval startIdx endIdx).enum).foldlM
    (fun s p => handleSegment frameCount objId (oracle p.1).1 (oracle p.1).2
                  p.2.1 p.2.2 s)
    segs

/-- Embedding of `VideoProcessor.add_points(frame_idx, points, labels)`
(`video_segmentation.py` lines 413-453): empty points or labels return
`None` before the Oracle is consulted; an Oracle success stores the mask
under `(frame_idx, current_obj_id)` and returns it; an Oracle exception is
caught, nothing is stored, and `None` is returned.  `oracleResult` is the
outcome of the `add_new_points_or_box` call. -/
def addPoints (segs : Segs) (objId frameIdx : Nat)
    (points : List (Int × Int)) (labels : List Int)
    (oracleResult : Except PyExc Mask) : Option Mask × Segs :=
  if points = [] ∨ labels = [] then (none, segs)
  else
    match oracleResult with
    | .ok m => (some m, store segs frameIdx objId m)
    | .error _ => (none, segs)

/-- An annotated keyframe's point list: `(x, y, label)` triples. -/
abbrev KeyPts := List (Int × Int × Int)

/-- Split `(x, y, label)` triples into the `points` and `labels` lists built
at `video_segmentation.py` lines 742-746 and 775-779. -/
def splitKeypoints (kp : KeyPts) : List (Int × Int) × List Int :=
  (kp.map (fun p => (p.1, p.2.1)), kp.map (fun p => p.2.2))

/-- Dictionary lookup `keypoints_dict[frame]` on the association-list model
of the keypoints dictionary (keys are unique at every call site). -/
def kpLookup (kps : List (Nat × KeyPts)) (f : Nat) : KeyPts :=
  ((kps.find? (fun p => p.1 == f)).map Prod.snd).getD []

/-- Insertion into a sorted list of frame indices. -/
def insertSorted (x : Nat) : List Nat → List Nat
  | [] => [x]
  | y :: ys => if x ≤ y then x :: y :: ys else y :: insertSorted x ys

/-- Insertion sort on frame indices. -/
def sortNat (xs : List Nat) : List Nat := xs.foldr insertSorted []

/-- Remove adjacent duplicates (so `dedupAdj (sortNat xs)` is Python's
`sorted(set(xs))`). -/
def dedupAdj : List Nat → List Nat
  | [] => []
  | [x] => [x]
  | x :: y :: rest =>
      if x = y then dedupAdj (y :: rest) else x :: dedupAdj (y :: rest)

/-- Computation `annotated_frames = sorted(keypoints_dict.keys())`
(`video_segmentation.py` line 732). -/
def sortedKeys (kps : List (Nat × KeyPts)) : List Nat :=
  dedupAdj (sortNat (kps.map Prod.fst))

/-- The abstracted Segmentation Oracle behaviour for one run:
`addPts f` is the outcome of the `add_new_points_or_box` call at frame `f`,
and `prop i j` the GPU/CPU outcomes for inner segment `j` of the `i`-th
outer (annotated-frame) segment. -/
structure Oracle where
  addPts : Nat → Except PyExc Mask
  prop : Nat → Nat → GpuOutcome × CpuOutcome

/-- Observable result of a completed `process_video_with_keypoints` call:
the Python return value (`None` for the early returns, `True` at the end),
the final stored mask mapping, and whether `save_results` ran (the output
videos were written). -/
structure RunResult where
  retVal : Option Bool
  segs : Segs
  outputWritten : Bool

/-- The `for i in range(len(annotated_frames))` loop of
`process_video_with_keypoints` (`video_segmentation.py` lines 758-797):
skip zero-length segments, re-apply annotations for every annotated frame
but the first (`continue` on failure), then propagate through the segment;
an exception escaping `propagate_in_video` aborts the loop. -/
def segLoop (frameCount objId interval : Nat) (oracle : Oracle)
    (kps : List (Nat × KeyPts)) :
    List Nat → Nat → Segs → Except PyExc Segs
  | [], _, segs => .ok segs
  | current :: rest, i, segs =>
    let nextF := match rest with | [] => frameCount | n :: _ => n
    if current = nextF then
      segLoop frameCount objId interval oracle kps rest (i + 1) segs
    else if i = 0 then
      match propagateInVideo frameCount objId interval (oracle.prop i)
              current nextF segs with
      | .error e => .error e
      | .ok s => segLoop frameCount objId interval oracle kps rest (i + 1) s
    else
      let sp := splitKeypoints (kpLookup kps current)
      match addPoints segs objId current sp.1 sp.2 (oracle.addPts current) with
      | (none, s) => segLoop frameCount objId interval oracle kps rest (i + 1) s
      | (some _, s) =>
        match propagateInVideo frameCount objId interval (oracle.prop i)
                current nextF s with
        | .error e => .error e
        | .ok s2 => segLoop frameCount objId interval oracle kps rest (i + 1) s2

/-- Embedding of `VideoProcessor.process_video_with_keypoints(keypoints_dict)`
(`video_segmentation.py` lines 717-806): empty annotated set → report and
return `None` (no `save_results`); first annotated frame's points applied
(`None` → return); then the segment loop; on completion `save_results`
writes the outputs and `True` is returned. -/
def processVideo (frameCount objId interval : Nat) (oracle : Oracle)
    (kps : List (Nat × KeyPts)) (segs0 : Segs) : Except PyExc RunResult :=
  match sortedKeys kps with
  | [] => .ok ⟨none, segs0, false⟩
  | first :: _ =>
    let sp := splitKeypoints (kpLookup kps first)
    match addPoints segs0 objId first sp.1 sp.2 (oracle.addPts first) with
    | (none, s) => .ok ⟨none, s, false⟩
    | (some _, s) =>
      match segLoop frameCount objId interval oracle kps (sortedKeys kps) 0 s with
      | .error e => .error e
      | .ok sFinal => .ok ⟨some true, sFinal, true⟩

/-- The tail of `main()` (`video_segmentation.py` lines 884-892): with a
truthy `keypoints_dict` the video is processed, otherwise
`"No keypoints available"` is reported and `main` just returns. -/
def mainRun (frameCount objId interval : Nat) (oracle : Oracle)
    (keypointsDict : List (Nat × KeyPts)) : Except PyExc (Option Bool × Bool) :=
  if keypointsDict.isEmpty then .ok (none, false)
  else
    (processVideo frameCount objId interval oracle keypointsDict emptySegs).map
      (fun r => (r.retVal, r.outputWritten))

/-- The `if __name__ == "__main__"` wrapper (`video_segmentation.py` lines
894-899): `main()` is run under `try/except Exception`, which prints a
traceback and falls through, so the interpreter always exits with status 0.
Returns `(exit status, whether the output videos were written)`. -/
def scriptRun (frameCount objId interval : Nat) (oracle : Oracle)
    (keypointsDict : List (Nat × KeyPts)) : Nat × Bool :=
  match mainRun frameCount objId interval oracle keypointsDict with
  | .ok (_, written) => (0, written)
  | .error _ => (0, false)

/-- Embedding of the `generate_keypoints` keyframe-index selection
(`simple_segment.py` lines 95-123): fixed-interval or count-based candidate
range, force 0 and `total_frames - 1` in, `sorted(set(...))`, and the
`if idx >= total_frames: continue` guard of the per-keyframe loop.
A Python-falsy `keyframe_interval` (absent or 0) selects the count-based
policy. -/
def generateKeyframes (totalFrames : Nat) (keyframeInterval : Option Nat)
    (numKeypoints : Nat) : List Nat :=
  let ks :=
    match keyframeInterval with
    | some (k + 1) => rangeStep 0 totalFrames (k + 1)
    | _ => rangeStep 0 totalFrames (max 1 (totalFrames / numKeypoints))
  let ks2 := if 0 ∈ ks then ks else 0 :: ks
  let ks3 := if totalFrames - 1 ∈ ks2 then ks2 else ks2 ++ [totalFrames - 1]
  (dedupAdj (sortNat ks3)).filter (fun x => x < totalFrames)

/-- The frame indices receiving keypoints in `auto_keypoints`
(`video_segmentation.py` lines 172-287): frame 0 when the first read
succeeds, then `i * frame_step` for `i in range(1, num_keypoints)` with
`frame_step = max(1, frame_count // (num_keypoints + 1))`, stopping at the
first failed read (`frame_idx >= frame_count`). -/
def autoKeyframes (frameCount numKeypoints : Nat) : List Nat :=
  if frameCount = 0 then []
  else
    let step := max 1 (frameCount / (numKeypoints + 1))
    0 :: (((List.range' 1 (numKeypoints - 1)).map (fun i => i * step)).takeWhile
          (fun f => f < frameCount))

/-- Width of a mask (`mask.shape[1]` of a rectangular array). -/
def maskWidth (m : Mask) : Nat := (m.head?.getD []).length

/-- Pixel read with the out-of-range default `false`. -/
def getPix (m : Mask) (i j : Nat) : Bool := ((m[i]?.getD [])[j]?.getD false)

/-- A mask is a rectangular array (every row has the same width). -/
def rectangular (m : Mask) : Prop := ∀ row ∈ m, row.length = maskWidth m

instance (m : Mask) : Decidable (rectangular m) :=
  inferInstanceAs (Decidable (∀ row ∈ m, row.length = maskWidth m))

/-- The stored-mask dimension correction of `VideoProcessor.save_results`
(`video_segmentation.py` lines 665-674): a mask whose `shape[:2]` differs
from `(height, width)` is replaced by a `(height, width)` zero array into
which the overlapping `[:min h, :min w]` region is copied; a matching mask
is used unchanged. -/
def fixMask (height width : Nat) (m : Mask) : Mask :=
  if m.length = height ∧ maskWidth m = width then m
  else
    let hh := min height m.length
    let ww := min width (maskWidth m)
    (List.range height).map (fun i =>
      (List.range width).map (fun j =>
        if i < hh ∧ j < ww then getPix m i j else false))

/-! ### Helper lemmas about the store and the fallback loop -/

lemma store_ne_frame (segs : Segs) (fi oi : Nat) (m : Mask) (f o : Nat) (h : f ≠ fi) :
    store segs fi oi m f o = segs f o := by
  simp [store, h]

lemma store_self (segs : Segs) (fi oi : Nat) (m : Mask) :
    store segs fi oi m fi oi = some m := by
  simp [store]

lemma fallbackFrame_ne (objId : Nat) (bref aref : Option (Nat × Mask)) (segs : Segs)
    (i f o : Nat) (h : f ≠ i) :
    fallbackFrame objId bref aref segs i f o = segs f o := by
  unfold fallbackFrame
  by_cases hs : (segs i objId).isSome
  · simp [hs]
  · simp only [hs, if_false, Bool.false_eq_true]
    rcases bref with _ | ⟨b, bm⟩ <;> rcases aref with _ | ⟨a, am⟩ <;>
      simp [store_ne_frame _ _ _ _ _ _ h]

lemma fallbackFrame_isSome_mono (objId : Nat) (bref aref : Option (Nat × Mask))
    (segs : Segs) (i f o : Nat) (h : (segs f o).isSome = true) :
    ((fallbackFrame objId bref aref segs i) f o).isSome = true := by
  by_cases hf : f = i
  · subst hf
    unfold fallbackFrame
    by_cases hs : (segs f objId).isSome
    · simpa [hs] using h
    · simp only [hs, if_false, Bool.false_eq_true]
      by_cases ho : o = objId
      · subst ho
        rcases bref with _ | ⟨b, bm⟩ <;> rcases aref with _ | ⟨a, am⟩ <;>
          simp [store, h]
      · rcases bref with _ | ⟨b, bm⟩ <;> rcases aref with _ | ⟨a, am⟩ <;>
          simp [store, ho, h]
  · rwa [fallbackFrame_ne _ _ _ _ _ _ _ hf]

lemma foldl_fallbackFrame_not_mem (objId : Nat) (bref aref : Option (Nat × Mask)) :
    ∀ (l : List Nat) (segs : Segs) (f o : Nat), f ∉ l →
      (l.foldl (fallbackFrame objId bref aref) segs) f o = segs f o := by
  intro l
  induction l with
  | nil => intro segs f o _; rfl
  | cons x xs ih =>
      intro segs f o h
      simp only [List.foldl_cons]
      rw [ih _ _ _ (fun hx => h (List.mem_cons_of_mem _ hx))]
      exact fallbackFrame_ne _ _ _ _ _ _ _ (fun hfx => h (hfx ▸ List.mem_cons_self x xs))

lemma foldl_fallbackFrame_isSome_mono (objId : Nat) (bref aref : Option (Nat × Mask)) :
    ∀ (l : List Nat) (segs : Segs) (f o : Nat), (segs f o).isSome = true →
      ((l.foldl (fallbackFrame objId bref aref) segs) f o).isSome = true := by
  intro l
  induction l with
  | nil => intro segs f o h; exact h
  | cons x xs ih =>
      intro segs f o h
      simp only [List.foldl_cons]
      exact ih _ _ _ (fallbackFrame_isSome_mono _ _ _ _ _ _ _ h)

/-- What the fallback stores at an unmasked frame `f` of the gap, as a
function of the two references: interpolation, a copy of the single
reference, or nothing. -/
def gapFill (bref aref : Option (Nat × Mask)) (f : Nat) : Option Mask :=
  match bref, aref with
  | some (b, bm), some (a, am) =>
      some (interpMask (((f : ℚ) - (b : ℚ)) / ((a : ℚ) - (b : ℚ))) bm am)
  | some (_, bm), none => some bm
  | none, some (_, am) => some am
  | none, none => none

lemma fallbackFrame_self_none (objId : Nat) (bref aref : Option (Nat × Mask))
    (segs : Segs) (f : Nat) (hm : segs f objId = none) :
    (fallbackFrame objId bref aref segs f) f objId = gapFill bref aref f := by
  unfold fallbackFrame
  simp only [hm, Option.isSome_none, Bool.false_eq_true, if_false]
  rcases bref with _ | ⟨b, bm⟩ <;> rcases aref with _ | ⟨a, am⟩ <;>
    simp [gapFill, store_self, hm]

lemma foldl_gapFill (objId : Nat) (bref aref : Option (Nat × Mask)) :
    ∀ (n s0 : Nat) (segs : Segs) (f : Nat), s0 ≤ f → f < s0 + n →
      segs f objId = none →
      ((List.range' s0 n).foldl (fallbackFrame objId bref aref) segs) f objId
        = gapFill bref aref f := by
  intro n
  induction n with
  | zero => intro s0 segs f h1 h2 _; omega
  | succ n ih =>
      intro s0 segs f h1 h2 hm
      rw [List.range'_succ]
      simp only [List.foldl_cons]
      by_cases hf : f = s0
      · subst hf
        rw [foldl_fallbackFrame_not_mem]
        · exact fallbackFrame_self_none _ _ _ _ _ hm
        · intro hmem
          have := List.mem_range'_1.mp hmem
          omega
      · refine ih (s0 + 1) _ f (by omega) (by omega) ?_
        rw [fallbackFrame_ne _ _ _ _ _ _ _ hf]
        exact hm

lemma foldl_fallbackFrame_id (objId : Nat) (bref aref : Option (Nat × Mask)) :
    ∀ (l : List Nat) (segs : Segs), (∀ f ∈ l, (segs f objId).isSome = true) →
      l.foldl (fallbackFrame objId bref aref) segs = segs := by
  intro l
  induction l with
  | nil => intro segs _; rfl
  | cons x xs ih =>
      intro segs h
      simp only [List.foldl_cons]
      have hx : fallbackFrame objId bref aref segs x = segs := by
        unfold fallbackFrame
        simp [h x (List.mem_cons_self x xs)]
      rw [hx]
      exact ih _ (fun f hf => h f (List.mem_cons_of_mem _ hf))

/-! ### Claim theorems (first batch) -/

/-- C7.  The Interpolation Fallback is idempotent: when every frame of
`range(start_idx, end_idx)` already holds a mask for the current object id,
`_fallback_processing` leaves the stored mask mapping unchanged. -/
theorem interpolation_fallback_idempotent
    (frameCount objId startIdx endIdx : Nat) (segs : Segs)
    (h : (List.range' startIdx (endIdx - startIdx)).all
          (fun f => (segs f objId).isSome) = true) :
    fallbackProcessing frameCount objId startIdx endIdx segs = segs := by
  unfold fallbackProcessing
  exact foldl_fallbackFrame_id _ _ _ _ _ (List.all_eq_true.mp h)

/-- Concrete instantiation of `interpolation_fallback_idempotent`: a mapping
holding masks at frames 0 and 1 for object 1 is unchanged by a fallback run
over `[0, 2)`. -/
def wSegs : Segs := fun f o => if o = 1 ∧ f < 2 then some [[true]] else none

theorem interpolation_fallback_idempotent_witness :
    ((List.range' 0 (2 - 0)).all (fun f => (wSegs f 1).isSome) = true) ∧
    fallbackProcessing 5 1 0 2 wSegs = wSegs :=
  ⟨by decide, interpolation_fallback_idempotent 5 1 0 2 wSegs (by decide)⟩

/-- C4.  The degraded-context recovery is entered only on an explicit
out-of-memory signal: when the Oracle's exception is not an OOM signal, the
segment handler returns exactly that exception whatever the CPU recovery
outcome would have been (the recovery is never consulted), aborting the run;
and exceptions of a class other than `RuntimeError` are never treated as an
OOM signal. -/
theorem non_oom_exception_propagates (frameCount objId : Nat)
    (ys : List Yield) (e : PyExc) (h : isOOM e = false) :
    (∀ (cpu : CpuOutcome) (kfStart kfEnd : Nat) (segs : Segs),
        handleSegment frameCount objId (.err ys e) cpu kfStart kfEnd segs = .error e) ∧
    (∀ clsName, isOOM (.otherExc clsName) = false) := by
  constructor
  · intro cpu kfStart kfEnd segs
    simp [handleSegment, h]
  · intro _
    rfl

theorem non_oom_exception_propagates_witness :
    isOOM (.runtimeError "shape mismatch in tensor") = false ∧
    handleSegment 30 1 (.err [] (.runtimeError "shape mismatch in tensor"))
        (.ok []) 0 10 emptySegs
      = .error (.runtimeError "shape mismatch in tensor") :=
  ⟨by decide,
   (non_oom_exception_propagates 30 1 [] _ (by decide)).1 (.ok []) 0 10 emptySegs⟩

/-- C5.  When the Oracle signals out-of-memory and the CPU recovery itself
raises, the segment handler invokes `_fallback_processing` on the segment's
frame range (over the state including all partial stores) and returns
normally, so the run continues with the next segment instead of aborting. -/
theorem failed_recovery_invokes_interpolation_fallback
    (frameCount objId : Nat) (ys ys2 : List Yield) (e e2 : PyExc)
    (kfStart kfEnd : Nat) (segs : Segs) (h : isOOM e = true) :
    handleSegment frameCount objId (.err ys e) (.fail ys2 e2) kfStart kfEnd segs =
      .ok (fallbackProcessing frameCount objId kfStart kfEnd
            (storeInRange kfStart kfEnd (storeInRange kfStart kfEnd segs ys) ys2)) := by
  simp [handleSegment, h]

theorem failed_recovery_invokes_interpolation_fallback_witness :
    isOOM (.runtimeError "CUDA out of memory") = true ∧
    handleSegment 30 1 (.err [] (.runtimeError "CUDA out of memory"))
        (.fail [] (.otherExc "ValueError")) 0 10 emptySegs
      = .ok (fallbackProcessing 30 1 0 10
              (storeInRange 0 10 (storeInRange 0 10 emptySegs []) [])) :=
  ⟨by decide,
   failed_recovery_invokes_interpolation_fallback 30 1 [] [] _ _ 0 10 emptySegs (by decide)⟩

/-- C10.  `add_points` returns `None` without consulting the Oracle when the
points or labels list is empty (the result does not depend on the Oracle's
outcome), and when the Oracle call raises it returns `None` with the stored
mask mapping unchanged. -/
theorem add_points_error_handling (segs : Segs) (objId frameIdx : Nat)
    (points : List (Int × Int)) (labels : List Int) :
    (points = [] ∨ labels = [] →
      ∀ oracleResult,
        addPoints segs objId frameIdx points labels oracleResult = (none, segs)) ∧
    (∀ e, addPoints segs objId frameIdx points labels (.error e) = (none, segs)) := by
  constructor
  · intro h _
    simp [addPoints, h]
  · intro e
    unfold addPoints
    split
    · rfl
    · rfl

theorem add_points_error_handling_witness :
    addPoints emptySegs 1 0 [] [(1 : Int)] (.ok [[true]]) = (none, emptySegs) ∧
    addPoints emptySegs 1 0 [((2 : Int), (3 : Int))] [(1 : Int)]
        (.error (.runtimeError "oracle failed")) = (none, emptySegs) :=
  ⟨(add_points_error_handling emptySegs 1 0 [] [(1 : Int)]).1 (Or.inl rfl) _,
   (add_points_error_handling emptySegs 1 0 [((2 : Int), (3 : Int))] [(1 : Int)]).2 _⟩

/-! ### Interpolation: formula, boundary behaviour, single-reference copies -/

/-- Boolean test that two masks have identical shape (same number of rows,
rows pairwise of the same length) — numpy arrays of equal `shape`. -/
def sameShapeB : Mask → Mask → Bool
  | [], [] => true
  | r1 :: rs1, r2 :: rs2 => r1.length == r2.length && sameShapeB rs1 rs2
  | _, _ => false

lemma blendPix_zero (b a : Bool) : blendPix 0 b a = b := by
  cases b <;> cases a <;>
    simp [blendPix, pixVal, decide_eq_true_eq, decide_eq_false_iff_not] <;> norm_num

lemma blendPix_one (b a : Bool) : blendPix 1 b a = a := by
  cases b <;> cases a <;>
    simp [blendPix, pixVal, decide_eq_true_eq, decide_eq_false_iff_not] <;> norm_num

lemma zipWith_blendPix_zero :
    ∀ (l1 l2 : List Bool), l1.length = l2.length →
      List.zipWith (blendPix 0) l1 l2 = l1 := by
  intro l1
  induction l1 with
  | nil => intro l2 _; rfl
  | cons x xs ih =>
      intro l2 h
      cases l2 with
      | nil => simp at h
      | cons y ys =>
          simp only [List.zipWith_cons_cons, blendPix_zero]
          rw [ih ys (by simpa using h)]

lemma zipWith_blendPix_one :
    ∀ (l1 l2 : List Bool), l1.length = l2.length →
      List.zipWith (blendPix 1) l1 l2 = l2 := by
  intro l1
  induction l1 with
  | nil => intro l2 h; cases l2 with
      | nil => rfl
      | cons y ys => simp at h
  | cons x xs ih =>
      intro l2 h
      cases l2 with
      | nil => simp at h
      | cons y ys =>
          simp only [List.zipWith_cons_cons, blendPix_one]
          rw [ih ys (by simpa using h)]

lemma interpMask_zero :
    ∀ (m1 m2 : Mask), sameShapeB m1 m2 = true → interpMask 0 m1 m2 = m1 := by
  intro m1
  induction m1 with
  | nil => intro m2 _; rfl
  | cons r rs ih =>
      intro m2 h
      cases m2 with
      | nil => simp [sameShapeB] at h
      | cons r2 rs2 =>
          simp only [sameShapeB, Bool.and_eq_true, beq_iff_eq] at h
          simp only [interpMask, List.zipWith_cons_cons]
          rw [zipWith_blendPix_zero r r2 h.1]
          have := ih rs2 h.2
          simpa [interpMask] using this

lemma interpMask_one :
    ∀ (m1 m2 : Mask), sameShapeB m1 m2 = true → interpMask 1 m1 m2 = m2 := by
  intro m1
  induction m1 with
  | nil => intro m2 h; cases m2 with
      | nil => rfl
      | cons r2 rs2 => simp [sameShapeB] at h
  | cons r rs ih =>
      intro m2 h
      cases m2 with
      | nil => simp [sameShapeB] at h
      | cons r2 rs2 =>
          simp only [sameShapeB, Bool.and_eq_true, beq_iff_eq] at h
          simp only [interpMask, List.zipWith_cons_cons]
          rw [zipWith_blendPix_one r r2 h.1]
          have := ih rs2 h.2
          simpa [interpMask] using this

/-- C2.  With both a nearest earlier reference `(b, bm)` and a nearest later
reference `(a, am)` for the object id, `_fallback_processing` assigns every
unmasked gap frame `f` the mask `interpMask ((f - b) / (a - b)) bm am`, i.e.
the real-valued blend `alpha·after + (1−alpha)·before` thresholded at 0.5
with `alpha = (f − before) / (after − before)`; and on equal-shape masks the
blend at `alpha = 0` is exactly `before` and at `alpha = 1` exactly
`after`. -/
theorem interpolation_formula_and_boundary
    (frameCount objId startIdx endIdx : Nat) (segs : Segs)
    (b a : Nat) (bm am : Mask)
    (hb : beforeRef segs objId startIdx = some (b, bm))
    (ha : afterRef segs objId endIdx frameCount = some (a, am))
    (f : Nat) (hf1 : startIdx ≤ f) (hf2 : f < endIdx)
    (hm : segs f objId = none) :
    (fallbackProcessing frameCount objId startIdx endIdx segs) f objId
      = some (interpMask (((f : ℚ) - (b : ℚ)) / ((a : ℚ) - (b : ℚ))) bm am)
    ∧ (∀ m1 m2 : Mask, sameShapeB m1 m2 = true →
        interpMask 0 m1 m2 = m1 ∧ interpMask 1 m1 m2 = m2) := by
  constructor
  · simp only [fallbackProcessing]
    rw [hb, ha]
    rw [foldl_gapFill objId _ _ (endIdx - startIdx) startIdx segs f hf1 (by omega) hm]
    rfl
  · intro m1 m2 h
    exact ⟨interpMask_zero m1 m2 h, interpMask_one m1 m2 h⟩

/-- A mapping with reference masks at frames 0 and 4 for object 1 and a gap
in between, used to instantiate the interpolation theorems. -/
def gapSegs : Segs := fun f o =>
  if o = 1 ∧ f = 0 then some [[true, false]]
  else if o = 1 ∧ f = 4 then some [[false, true]] else none

theorem interpolation_formula_and_boundary_witness :
    beforeRef gapSegs 1 1 = some (0, [[true, false]]) ∧
    afterRef gapSegs 1 4 5 = some (4, [[false, true]]) ∧
    gapSegs 2 1 = none ∧
    (fallbackProcessing 5 1 1 4 gapSegs) 2 1
      = some (interpMask ((((2 : ℕ) : ℚ) - ((0 : ℕ) : ℚ)) / (((4 : ℕ) : ℚ) - ((0 : ℕ) : ℚ)))
              [[true, false]] [[false, true]]) :=
  ⟨by decide, by decide, by decide,
   (interpolation_formula_and_boundary 5 1 1 4 gapSegs 0 4 [[true, false]] [[false, true]]
     (by decide) (by decide) 2 (by decide) (by decide) (by decide)).1⟩

/-- C6.  When only one reference exists for the gap, `_fallback_processing`
assigns every unmasked frame of the gap a copy of that reference mask,
unchanged (no extrapolation): the `before` mask when only a `before`
reference exists, symmetrically the `after` mask. -/
theorem single_reference_copied_unchanged
    (frameCount objId startIdx endIdx : Nat) (segs : Segs) (f : Nat)
    (hf1 : startIdx ≤ f) (hf2 : f < endIdx) (hm : segs f objId = none) :
    (∀ b bm, beforeRef segs objId startIdx = some (b, bm) →
        afterRef segs objId endIdx frameCount = none →
        (fallbackProcessing frameCount objId startIdx endIdx segs) f objId = some bm) ∧
    (∀ a am, beforeRef segs objId startIdx = none →
        afterRef segs objId endIdx frameCount = some (a, am) →
        (fallbackProcessing frameCount objId startIdx endIdx segs) f objId = some am) := by
  constructor <;>
    · intro x xm h1 h2
      simp only [fallbackProcessing]
      rw [h1, h2]
      rw [foldl_gapFill objId _ _ (endIdx - startIdx) startIdx segs f hf1 (by omega) hm]
      rfl

/-- A mapping with a single reference mask at frame 0 for object 1. -/
def beforeOnlySegs : Segs := fun f o =>
  if o = 1 ∧ f = 0 then some [[true, true]] else none

theorem single_reference_copied_unchanged_witness :
    beforeOnlySegs 3 1 = none ∧
    beforeRef beforeOnlySegs 1 1 = some (0, [[true, true]]) ∧
    afterRef beforeOnlySegs 1 5 5 = none ∧
    (fallbackProcessing 5 1 1 5 beforeOnlySegs) 3 1 = some [[true, true]] :=
  ⟨by decide, by decide, by decide,
   (single_reference_copied_unchanged 5 1 1 5 beforeOnlySegs 3 (by decide) (by decide)
     (by decide)).1 0 [[true, true]] (by decide) (by decide)⟩

/-! ### C1: full-coverage invariant -/

lemma gapFill_isSome_left (aref : Option (Nat × Mask)) (f b : Nat) (bm : Mask) :
    (gapFill (some (b, bm)) aref f).isSome = true := by
  rcases aref with _ | ⟨a, am⟩ <;> rfl

lemma gapFill_isSome_right (bref : Option (Nat × Mask)) (f a : Nat) (am : Mask) :
    (gapFill bref (some (a, am)) f).isSome = true := by
  rcases bref with _ | ⟨b, bm⟩ <;> rfl

/-- C1 (amended).  After `_fallback_processing` runs on a segment
`[start_idx, end_idx)`, every frame of the segment holds a mask for the
current object id provided the fallback's reference search found a mask —
i.e. a mask exists strictly before `start_idx` or at/after `end_idx`.  (The
original claim — a frame is left without a mask only when no reference mask
exists anywhere in the video — fails: the search never looks inside
`[start_idx, end_idx)` itself; see the counterexample.) -/
theorem fallback_masks_every_frame_when_reference_visible
    (frameCount objId startIdx endIdx : Nat) (segs : Segs)
    (h : (beforeRef segs objId startIdx).isSome = true ∨
         (afterRef segs objId endIdx frameCount).isSome = true) :
    ∀ f, startIdx ≤ f → f < endIdx →
      ((fallbackProcessing frameCount objId startIdx endIdx segs) f objId).isSome = true := by
  intro f hf1 hf2
  simp only [fallbackProcessing]
  by_cases hm : (segs f objId).isSome = true
  · exact foldl_fallbackFrame_isSome_mono _ _ _ _ _ _ _ hm
  · have hm' : segs f objId = none := Option.not_isSome_iff_eq_none.mp hm
    rw [foldl_gapFill objId _ _ (endIdx - startIdx) startIdx segs f hf1 (by omega) hm']
    rcases h with h | h
    · obtain ⟨⟨bb, bbm⟩, hb⟩ := Option.isSome_iff_exists.mp h
      rw [hb]
      exact gapFill_isSome_left _ _ _ _
    · obtain ⟨⟨aa, aam⟩, ha⟩ := Option.isSome_iff_exists.mp h
      rw [ha]
      exact gapFill_isSome_right _ _ _ _

theorem fallback_masks_every_frame_when_reference_visible_witness :
    (beforeRef beforeOnlySegs 1 1).isSome = true ∧
    ((fallbackProcessing 5 1 1 5 beforeOnlySegs) 3 1).isSome = true :=
  ⟨by decide,
   fallback_masks_every_frame_when_reference_visible 5 1 1 5 beforeOnlySegs
     (Or.inl (by decide)) 3 (by decide) (by decide)⟩

/-- A reference mask used by the C1 counterexample oracle. -/
def exMask : Mask := [[true]]

/-- Oracle behaviour for the C1 counterexample: annotation points succeed,
GPU propagation raises out-of-memory at once, and the CPU recovery raises as
well, so every segment falls through to `_fallback_processing`. -/
def exOracle : Oracle where
  addPts := fun _ => .ok exMask
  prop := fun _ _ =>
    (GpuOutcome.err [] (.runtimeError "MPS backend out of memory"),
     CpuOutcome.fail [] (.runtimeError "failed to allocate on cpu"))

/-- One annotated keyframe at frame 0. -/
def exKps : List (Nat × KeyPts) := [(0, [(1, 1, 1)])]

/-- C1 (counterexample).  A two-frame video whose processing runs to
completion (`process_video_with_keypoints` returns `True` and writes the
outputs) while a reference mask exists at frame 0, yet frame 1 ends with no
stored mask for the tracked object: the fallback's reference search looks
only strictly before the failed segment and at/after its end, so the mask at
frame 0 — inside the segment `[0, 2)` — is never used.  This refutes the
claim that a frame is left without a mask only when no reference mask exists
anywhere in the video. -/
theorem completed_run_leaves_gap_despite_reference :
    (processVideo 2 1 10 exOracle exKps emptySegs).toOption.map (fun r => r.retVal)
      = some (some true) ∧
    (processVideo 2 1 10 exOracle exKps emptySegs).toOption.map (fun r => r.outputWritten)
      = some true ∧
    (processVideo 2 1 10 exOracle exKps emptySegs).toOption.map (fun r => (r.segs 0 1).isSome)
      = some true ∧
    (processVideo 2 1 10 exOracle exKps emptySegs).toOption.map (fun r => r.segs 1 1)
      = some none := by
  refine ⟨?_, ?_, ?_, ?_⟩ <;> decide

/-! ### C3: keyframe selector endpoints -/

lemma mem_insertSorted (a x : Nat) :
    ∀ l : List Nat, a ∈ insertSorted x l ↔ a = x ∨ a ∈ l := by
  intro l
  induction l with
  | nil => simp [insertSorted]
  | cons y ys ih =>
      unfold insertSorted
      by_cases h : x ≤ y
      · simp [h]
      · simp only [h, if_false, List.mem_cons, ih]
        tauto

lemma mem_sortNat (a : Nat) : ∀ l : List Nat, a ∈ sortNat l ↔ a ∈ l := by
  intro l
  induction l with
  | nil => simp [sortNat]
  | cons x xs ih =>
      simp only [sortNat, List.foldr_cons] at ih ⊢
      rw [mem_insertSorted, ih, List.mem_cons]

lemma mem_dedupAdj (a : Nat) : ∀ l : List Nat, a ∈ dedupAdj l ↔ a ∈ l := by
  intro l
  induction l using dedupAdj.induct with
  | case1 => simp [dedupAdj]
  | case2 x => simp [dedupAdj]
  | case3 y rest ih =>
      have hstep : dedupAdj (y :: y :: rest) = dedupAdj (y :: rest) := by
        simp [dedupAdj]
      rw [hstep, ih]
      constructor
      · intro h2
        exact List.mem_cons_of_mem _ h2
      · intro h2
        rcases List.mem_cons.mp h2 with h2 | h2
        · exact h2 ▸ List.mem_cons_self _ _
        · exact h2
  | case4 x y rest h ih =>
      simp only [dedupAdj, if_neg h, List.mem_cons, ih]

lemma mem_filter_dedup_sort (x : Nat) (l : List Nat) (n : Nat) :
    x ∈ (dedupAdj (sortNat l)).filter (fun y => y < n) ↔ x ∈ l ∧ x < n := by
  simp [List.mem_filter, mem_dedupAdj, mem_sortNat]

lemma endpoints_mem_pipeline (n : Nat) (hn : 2 ≤ n) (ks : List Nat) :
    (0 ∈ (dedupAdj (sortNat
        (if n - 1 ∈ (if 0 ∈ ks then ks else 0 :: ks)
         then (if 0 ∈ ks then ks else 0 :: ks)
         else (if 0 ∈ ks then ks else 0 :: ks) ++ [n - 1]))).filter (fun x => x < n)) ∧
    ((n - 1) ∈ (dedupAdj (sortNat
        (if n - 1 ∈ (if 0 ∈ ks then ks else 0 :: ks)
         then (if 0 ∈ ks then ks else 0 :: ks)
         else (if 0 ∈ ks then ks else 0 :: ks) ++ [n - 1]))).filter (fun x => x < n)) := by
  have h0 : 0 ∈ (if 0 ∈ ks then ks else 0 :: ks) := by
    by_cases h : (0 : Nat) ∈ ks <;> simp [h]
  constructor
  · rw [mem_filter_dedup_sort]
    refine ⟨?_, by omega⟩
    by_cases h : n - 1 ∈ (if 0 ∈ ks then ks else 0 :: ks) <;>
      simp [h, h0, List.mem_append]
  · rw [mem_filter_dedup_sort]
    refine ⟨?_, by omega⟩
    by_cases h : n - 1 ∈ (if 0 ∈ ks then ks else 0 :: ks) <;>
      simp [h, List.mem_append]

/-- C3 (amended).  `generate_keypoints` does include both frame 0 and frame
N−1 for every N ≥ 2, under the fixed-interval policy for every interval
k ≥ 1 and under the count-based policy for every requested count c ≥ 1;
`auto_keypoints` (the count-based selector of `video_segmentation.py`)
guarantees only frame 0 — it does not in general include frame N−1 (see the
counterexample). -/
theorem keyframe_selector_includes_endpoints (N k c num : Nat)
    (hN : 2 ≤ N) (hk : 1 ≤ k) (hc : 1 ≤ c) :
    (0 ∈ generateKeyframes N (some k) c ∧ (N - 1) ∈ generateKeyframes N (some k) c) ∧
    (0 ∈ generateKeyframes N none c ∧ (N - 1) ∈ generateKeyframes N none c) ∧
    0 ∈ autoKeyframes N num := by
  refine ⟨?_, ?_, ?_⟩
  · obtain ⟨kp, rfl⟩ : ∃ kp, k = kp + 1 := ⟨k - 1, by omega⟩
    simpa only [generateKeyframes] using
      endpoints_mem_pipeline N hN (rangeStep 0 N (kp + 1))
  · simpa only [generateKeyframes] using
      endpoints_mem_pipeline N hN (rangeStep 0 N (max 1 (N / c)))
  · simp only [autoKeyframes]
    rw [if_neg (by omega)]
    exact List.mem_cons_self _ _

theorem keyframe_selector_includes_endpoints_witness :
    ((2 : Nat) ≤ 30 ∧ (1 : Nat) ≤ 7 ∧ (1 : Nat) ≤ 4) ∧
    ((30 - 1) ∈ generateKeyframes 30 (some 7) 4 ∧ 0 ∈ autoKeyframes 30 6) :=
  ⟨⟨by decide, by decide, by decide⟩,
   (keyframe_selector_includes_endpoints 30 7 4 6 (by decide) (by decide) (by decide)).1.2,
   (keyframe_selector_includes_endpoints 30 7 4 6 (by decide) (by decide) (by decide)).2.2⟩

/-- C3 (counterexample).  `auto_keypoints` on a 100-frame video with a
requested count of 5 selects exactly the frames `{0, 16, 32, 48, 64}`; the
last frame 99 = 100 − 1 is not in its output set, refuting the claim for the
count-based policy of `video_segmentation.py`. -/
theorem auto_keypoints_misses_last_frame :
    autoKeyframes 100 5 = [0, 16, 32, 48, 64] ∧ (100 - 1) ∉ autoKeyframes 100 5 := by
  constructor <;> decide

/-! ### C8: mask dimension correction in `save_results` -/

/-- C8.  The embedded mask-dimension correction of `save_results` is total
(a size mismatch never raises): the corrected mask always has exactly
`height` rows of length `width`; a mask whose dimensions already match is
used unchanged; and every pixel of the corrected mask agrees with the
original on the overlapping cropped region and is `false` (zero padding)
elsewhere. -/
theorem save_results_mask_size_correction (height width : Nat) (m : Mask)
    (hrect : rectangular m) :
    (fixMask height width m).length = height ∧
    (∀ row ∈ fixMask height width m, row.length = width) ∧
    (m.length = height → maskWidth m = width → fixMask height width m = m) ∧
    (∀ i j, i < height → j < width →
      getPix (fixMask height width m) i j =
        if i < m.length ∧ j < maskWidth m then getPix m i j else false) := by
  by_cases hmatch : m.length = height ∧ maskWidth m = width
  · obtain ⟨hh, hw⟩ := hmatch
    have hfix : fixMask height width m = m := by simp [fixMask, hh, hw]
    refine ⟨by rw [hfix, hh], ?_, fun _ _ => hfix, ?_⟩
    · intro row hrow
      rw [hfix] at hrow
      rw [hrect row hrow, hw]
    · intro i j hi hj
      rw [hfix, if_pos ⟨by omega, by omega⟩]
  · have hfix : fixMask height width m =
        (List.range height).map (fun i =>
          (List.range width).map (fun j =>
            if i < min height m.length ∧ j < min width (maskWidth m)
            then getPix m i j else false)) := by
      simp only [fixMask, if_neg hmatch]
    refine ⟨by simp [hfix], ?_, fun h1 h2 => absurd ⟨h1, h2⟩ hmatch, ?_⟩
    · intro row hrow
      rw [hfix] at hrow
      obtain ⟨i, _, rfl⟩ := List.mem_map.mp hrow
      show ((List.range width).map _).length = width
      rw [List.length_map, List.length_range]
    · intro i j hi hj
      rw [hfix]
      simp only [getPix, List.getElem?_map, List.getElem?_range hi,
        List.getElem?_range hj, Option.map_some', Option.getD_some]
      by_cases hc : i < m.length ∧ j < maskWidth m
      · rw [if_pos ⟨by omega, by omega⟩, if_pos hc]
      · rw [if_neg (by omega), if_neg hc]

theorem save_results_mask_size_correction_witness :
    rectangular [[true, false], [false, true]] ∧
    (fixMask 3 3 [[true, false], [false, true]]).length = 3 :=
  ⟨by decide, (save_results_mask_size_correction 3 3 [[true, false], [false, true]]
    (by decide)).1⟩

/-! ### C9: empty keyframe set -/

/-- A stub Oracle used to instantiate the run-level statements. -/
def stubOracle : Oracle where
  addPts := fun _ => .ok [[true]]
  prop := fun _ _ => (.ok [], .ok [])

/-- C9 (counterexample).  With an empty keyframe set the script writes no
output video, but the process exits with status 0, not a non-zero status:
`main` merely prints `"No keypoints available"` and returns, and the
top-level handler swallows every exception, so no non-zero exit is ever
produced. -/
theorem empty_keyframes_exit_status_zero :
    scriptRun 30 1 10 stubOracle [] = (0, false) := by
  rfl

/-- C9 (amended).  With an empty keyframe set, the run reports the absence
of keyframes and terminates without writing any output video — but with
exit status 0, not a non-zero status: `process_video_with_keypoints`
returns `None` before `save_results`, `main` returns normally, and the
script's catch-all wrapper also exits with 0 on failure. -/
theorem empty_keyframes_reports_and_writes_nothing
    (frameCount objId interval : Nat) (oracle : Oracle) (segs : Segs) :
    scriptRun frameCount objId interval oracle [] = (0, false) ∧
    processVideo frameCount objId interval oracle [] segs = .ok ⟨none, segs, false⟩ ∧
    mainRun frameCount objId interval oracle [] = .ok (none, false) :=
  ⟨rfl, rfl, rfl⟩

end ArsPostFaber
